import Mathlib

set_option linter.unusedVariables false

/- Verification model of the ONCE webserver Address Resolution and Component
   Persistence Bridge (src/2_systems/OnceWeberver.class.mts).  The two request
   handlers with real semantics are embedded: the anonymous reference handler
   registered for GET /ior* inside start(), and _handleUDE_CRUD serving the
   /UDE namespace.  External collaborators (DefaultIOR, UDELoader, the
   per-component persistence manager and its registry) are not part of this
   repository; where a claim depends on them they are modelled from the
   specification, and each such definition carries a doc comment saying so. -/

/-- Failure kinds raised by the binding layer and its collaborators.  The
source throws plain Error values; the kinds follow the taxonomy used by the
specification plus the two creation-time conflicts the model needs. -/
inductive Failure where
  | notFound
  | malformedPayload
  | malformedReference
  | methodNotImplemented
  | aliasConflict
  | idConflict
  deriving DecidableEq

/-- Responses a handler can send through the reply object.  The reference
handler only ever sends a redirect. -/
inductive HttpResponse where
  | redirect (target : String)
  deriving DecidableEq

/-- Raw record of one handler execution: the responses it sent through the
reply object, in order, and the failure it raised out of the handler body,
when any. -/
structure HandlerRun where
  sent : List HttpResponse
  raised : Option Failure
  deriving DecidableEq

/-- Client-visible outcome of a handler run under the HTTP layer semantics:
once a response has been sent it cannot be unsent, so a failure raised after
the send is discarded by the framework; with nothing sent the raised failure
becomes the outcome.  A run that neither sends nor raises has no outcome. -/
inductive Outcome where
  | response (r : HttpResponse)
  | failed (f : Failure)
  deriving DecidableEq

def terminalOutcome (run : HandlerRun) : Option Outcome :=
  match run.sent with
  | r :: _ => some (Outcome.response r)
  | [] => run.raised.map Outcome.failed

/-- Drops xs from the front of the second list, returning the remainder when
the second list starts with xs and none otherwise. -/
def dropPrefixCL : List Char → List Char → Option (List Char)
  | [], ys => some ys
  | _ :: _, [] => none
  | x :: xs, y :: ys => if x = y then dropPrefixCL xs ys else none

/-- Boolean form of the String.startsWith test used by the source, computed
on the character lists. -/
def strStartsWith (s p : String) : Bool :=
  (dropPrefixCL p.data s.data).isSome

/-- Embedding of the url.replace of a single leading slash performed by the
reference handler before parsing. -/
def stripLeadingSlash (s : String) : String :=
  match s.data with
  | '/' :: rest => String.mk rest
  | _ => s

def splitSlashAux : List Char → List Char → List (List Char)
  | acc, [] => [acc.reverse]
  | acc, '/' :: rest => acc.reverse :: splitSlashAux [] rest
  | acc, c :: rest => splitSlashAux (c :: acc) rest

def splitSegs (s : String) : List String :=
  ((splitSlashAux [] s.data).filter (fun l => !l.isEmpty)).map String.mk

def dropCommonPrefix : List String → List String → List String × List String
  | a :: as, b :: bs => if a = b then dropCommonPrefix as bs else (a :: as, b :: bs)
  | as, bs => (as, bs)

def joinSlash : List String → String
  | [] => ""
  | [s] => s
  | s :: rest => s ++ "/" ++ joinSlash rest

/-- Embedding of the Node path.relative call used at line 110 of the source,
for already-normalized relative paths: when the target extends the base with
a separator the base prefix is dropped; otherwise the common segment prefix
is removed and each remaining base segment becomes a parent step. -/
def pathRelative (base target : String) : String :=
  match dropPrefixCL (base.data ++ ['/']) target.data with
  | some rest => String.mk rest
  | none =>
    let p := dropCommonPrefix (splitSegs base) (splitSegs target)
    joinSlash (p.1.map (fun _ => "..") ++ p.2)

/-- Embedding of the GET /ior* handler registered in start() (source lines
102 to 118).  The external resolver chain (new DefaultIOR().init(...) then
ior.load with the path return option) is abstracted as the loadPath argument
per its contract: some p when the reference resolves to a resource path,
none when resolution fails with NotFound.  The source sends the redirect and
then falls through to the unconditional throw of Not Found on line 116, so
the success branch records both the sent redirect and a raised failure. -/
def iorGetHandler (loadPath : String → Option String) (webRoot : String)
    (secFetchDest : Option String) (url : String) : HandlerRun :=
  if strStartsWith url "/ior:esm:" then
    if secFetchDest = some "script" then
      match loadPath (stripLeadingSlash url) with
      | some urlPath =>
        { sent := [HttpResponse.redirect ("/" ++ pathRelative webRoot urlPath)],
          raised := some Failure.notFound }
      | none => { sent := [], raised := some Failure.notFound }
    else { sent := [], raised := some Failure.notFound }
  else { sent := [], raised := some Failure.notFound }

/-- Model payloads carried by components, as JSON-like objects flattened to
association lists from field names to integer values. -/
abbrev ModelData := List (String × Int)

/-- Protocol tags of an address reference chain.  The source pushes
urlProtocol.ude onto a parsed reference to force persisted-state loading. -/
inductive UrlProtocol where
  | ude
  | esm
  deriving DecidableEq

/-- Structured address reference: ordered protocol chain plus the remaining
location string, per section 3 of the specification. -/
structure IOR where
  protocol : List UrlProtocol
  pathStr : String
  deriving DecidableEq

/-- Association list lookup keyed by decidable equality. -/
def lookupKV {α β : Type} [DecidableEq α] : List (α × β) → α → Option β
  | [], _ => none
  | (k, v) :: rest, key => if k = key then some v else lookupKV rest key

/-- Inbound HTTP body for create and update requests, with the optional
fields of the payload shape given in section 4.2 of the specification. -/
structure RequestBody where
  typeReference : Option String
  model : Option ModelData
  id : Option String
  aliases : Option (List String)
  deriving DecidableEq

/-- Validated payload, with the field names the source reads off the value
returned by UDELoader.validateUDEStructure: typeIOR, particle.data, id and
the alias list, the last called aliasNames here. -/
structure UDEData where
  typeIOR : String
  particleData : ModelData
  id : Option String
  aliasNames : Option (List String)
  deriving DecidableEq

instance {ε α : Type} [DecidableEq ε] [DecidableEq α] : DecidableEq (Except ε α)
  | Except.error e, Except.error f =>
    if h : e = f then isTrue (by rw [h]) else isFalse (by intro hh; cases hh; exact h rfl)
  | Except.error _, Except.ok _ => isFalse (by intro hh; cases hh)
  | Except.ok _, Except.error _ => isFalse (by intro hh; cases hh)
  | Except.ok a, Except.ok b =>
    if h : a = b then isTrue (by rw [h]) else isFalse (by intro hh; cases hh; exact h rfl)

/-- Modelled from the spec: UDELoader.validateUDEStructure is external to
this repository; section 4.2 requires a typeReference and a model payload,
with optional id and aliases, failing with MalformedPayload otherwise.  A
missing body fails the same way. -/
def validateUDEStructure (body : Option RequestBody) : Except Failure UDEData :=
  match body with
  | none => Except.error Failure.malformedPayload
  | some b =>
    match b.typeReference, b.model with
    | some t, some m =>
      Except.ok { typeIOR := t, particleData := m, id := b.id, aliasNames := b.aliases }
    | _, _ => Except.error Failure.malformedPayload

/-- Live component instance: its type reference, the canonical identifier
written onto its IOR by the create path, its model, and the aliases recorded
on its persistence manager before create commits them. -/
structure Component where
  typeRef : String
  compId : Option String
  model : ModelData
  pendingAliases : List String
  deriving DecidableEq

/-- Modelled from the spec: the registry and durable store owned by the
external Resolver and persistence collaborators, per section 3.  live is the
process-wide registry of loaded instances, durable the persisted records,
both keyed by canonical identifier; aliasMap sends each alias to the
canonical identifier it names. -/
structure BridgeState where
  live : List (Option String × Component)
  durable : List (Option String × Component)
  aliasMap : List (String × Option String)
  deriving DecidableEq

/-- Persistence manager calls a handler performs, recorded in order.  The
read-only snapshot accessor ucpComponentData is not a mutating call and is
not recorded. -/
inductive PMCall where
  | addAlias (name : String)
  | create
  | deleteCall
  deriving DecidableEq

/-- Response payloads of the /UDE handler: the component snapshot returned
by the GET, POST and PUT branches, or the fixed delete acknowledgement. -/
inductive UDEResponse where
  | snapshot (c : Component)
  | deleteOk
  deriving DecidableEq

/-- Result of one _handleUDE_CRUD execution: terminal result, state of the
external collaborators afterwards, and the persistence manager calls made. -/
structure UDERun where
  result : Except Failure UDEResponse
  state : BridgeState
  trace : List PMCall
  deriving DecidableEq

/-- Drops a literal prefix from a string, returning the string unchanged
when the prefix does not match. -/
def stripPrefixStr (pre s : String) : String :=
  match dropPrefixCL pre.data s.data with
  | some rest => String.mk rest
  | none => s

/-- Modelled from the spec: the Address Reference Parser (DefaultIOR.init)
is external to this repository; per section 4.1 it decomposes a URL of the
persisted-component namespace into an empty protocol chain and the location
string left after the namespace prefix. -/
def defaultIOR_init (url : String) : IOR :=
  { protocol := [], pathStr := stripPrefixStr "/UDE/" url }

/-- Embedding of ior.protocol.push: extends the protocol chain of an already
parsed reference without touching its location string. -/
def pushProtocol (r : IOR) (t : UrlProtocol) : IOR :=
  { r with protocol := r.protocol ++ [t] }

/-- Reference the GET, DELETE and PUT branches resolve: the parse of the
request url with the persisted-component tag pushed onto the chain. -/
def udeRefFor (url : String) : IOR :=
  pushProtocol (defaultIOR_init url) UrlProtocol.ude

/-- Modelled from the spec: resolution inside the external Resolver/Loader,
per sections 3 and 4.2.  The address denotes a canonical identifier when
the registry or the durable store holds it, and otherwise is looked up as an
alias; the instance is served from the live registry, lazily loading it from
the durable store on first resolution.  Returns the canonical key, the
component, and the state after any lazy registration. -/
def resolveKey (st : BridgeState) (addr : String) : Option (Option String) :=
  if (lookupKV st.live (some addr)).isSome || (lookupKV st.durable (some addr)).isSome then
    some (some addr)
  else lookupKV st.aliasMap addr

def resolveUDE (st : BridgeState) (addr : String) :
    Option (Option String × Component × BridgeState) :=
  match resolveKey st addr with
  | none => none
  | some k =>
    match lookupKV st.live k with
    | some c => some (k, c, st)
    | none =>
      match lookupKV st.durable k with
      | some c => some (k, c, { st with live := (k, c) :: st.live })
      | none => none

/-- Modelled from the spec: ior.load on a reference, per section 3; the last
protocol tag determines resolution semantics, so persisted-state resolution
requires the chain to end in the persisted-component tag. -/
def loadUDE (r : IOR) (st : BridgeState) :
    Option (Option String × Component × BridgeState) :=
  if r.protocol.getLast? = some UrlProtocol.ude then resolveUDE st r.pathStr else none

/-- Modelled from the spec: addAlias registers names mapping many-to-one
onto canonical identifiers, so registering an alias that is already taken,
or repeated in the same request, fails.  The loop embeds source lines 180 to
184: aliases are attempted in order and the first failure aborts; returns
the successfully registered names and the verdict. -/
def aliasLoop (am : List (String × Option String)) (acc : List String) :
    List String → List String × Except Failure Unit
  | [] => (acc, Except.ok ())
  | a :: rest =>
    if (lookupKV am a).isSome || acc.contains a then (acc, Except.error Failure.aliasConflict)
    else aliasLoop am (acc ++ [a]) rest

/-- Embedding of the POST branch of _handleUDE_CRUD (source lines 171 to
188): validate the body, resolve the type reference to a constructor (the
external class load is modelled as membership in the known class table),
instantiate, assign model and id from the payload, register each alias, then
perform the durable create, which per the spec commits the record and its
aliases and fails on an identifier conflict; respond with the snapshot. -/
def postOp (classTable : List String) (body : Option RequestBody) (st : BridgeState) : UDERun :=
  match validateUDEStructure body with
  | Except.error f => { result := Except.error f, state := st, trace := [] }
  | Except.ok d =>
    if classTable.contains d.typeIOR then
      let c : Component :=
        { typeRef := d.typeIOR, compId := d.id, model := d.particleData, pendingAliases := [] }
      match aliasLoop st.aliasMap [] (d.aliasNames.getD []) with
      | (done, Except.error f) =>
        { result := Except.error f, state := st, trace := done.map PMCall.addAlias }
      | (done, Except.ok _) =>
        let c2 := { c with pendingAliases := done }
        if (lookupKV st.durable d.id).isSome || (lookupKV st.live d.id).isSome then
          { result := Except.error Failure.idConflict, state := st,
            trace := done.map PMCall.addAlias ++ [PMCall.create] }
        else
          { result := Except.ok (UDEResponse.snapshot c2),
            state := { st with
              durable := (d.id, c2) :: st.durable,
              aliasMap := done.map (fun a => (a, d.id)) ++ st.aliasMap },
            trace := done.map PMCall.addAlias ++ [PMCall.create] }
    else { result := Except.error Failure.notFound, state := st, trace := [] }

/-- Embedding of the GET branch of _handleUDE_CRUD (source lines 162 to
169): parse the url, push the persisted-component tag, load, and return the
snapshot; a failed load propagates as NotFound. -/
def getOp (url : String) (st : BridgeState) : UDERun :=
  match loadUDE (udeRefFor url) st with
  | none => { result := Except.error Failure.notFound, state := st, trace := [] }
  | some (_, c, st1) =>
    { result := Except.ok (UDEResponse.snapshot c), state := st1, trace := [] }

def eraseKeyAll {α β : Type} [DecidableEq α] : List (α × β) → α → List (α × β)
  | [], _ => []
  | (k, v) :: rest, key =>
    if k = key then eraseKeyAll rest key else (k, v) :: eraseKeyAll rest key

def eraseValAll : List (String × Option String) → Option String → List (String × Option String)
  | [], _ => []
  | (a, k) :: rest, key =>
    if k = key then eraseValAll rest key else (a, k) :: eraseValAll rest key

/-- Embedding of the DELETE branch of _handleUDE_CRUD (source lines 189 to
195): parse, push the persisted-component tag, load, call delete on the
persistence manager, and acknowledge.  Per section 4.3 of the specification
delete evicts the record, its live registration and all its aliases. -/
def deleteOp (url : String) (st : BridgeState) : UDERun :=
  match loadUDE (udeRefFor url) st with
  | none => { result := Except.error Failure.notFound, state := st, trace := [] }
  | some (k, _, st1) =>
    { result := Except.ok UDEResponse.deleteOk,
      state :=
        { live := eraseKeyAll st1.live k,
          durable := eraseKeyAll st1.durable k,
          aliasMap := eraseValAll st1.aliasMap k },
      trace := [PMCall.deleteCall] }

/-- Replaces the model of the live instance registered under the given key;
this is the object mutation udeComponent.model = udeData.particle.data seen
through the registry. -/
def setModelAt : List (Option String × Component) → Option String → ModelData →
    List (Option String × Component)
  | [], _, _ => []
  | (k0, c0) :: rest, k, m =>
    (if k0 = k then (k0, { c0 with model := m }) else (k0, c0)) :: setModelAt rest k m

/-- Embedding of the PUT branch of _handleUDE_CRUD (source lines 197 to
205): validate the body, parse and load as for GET, assign the payload model
onto the live instance, and return the snapshot.  No persistence manager
call is made. -/
def putOp (url : String) (body : Option RequestBody) (st : BridgeState) : UDERun :=
  match validateUDEStructure body with
  | Except.error f => { result := Except.error f, state := st, trace := [] }
  | Except.ok d =>
    match loadUDE (udeRefFor url) st with
    | none => { result := Except.error Failure.notFound, state := st, trace := [] }
    | some (k, c, st1) =>
      { result := Except.ok (UDEResponse.snapshot { c with model := d.particleData }),
        state := { st1 with live := setModelAt st1.live k d.particleData },
        trace := [] }

inductive Method where
  | get
  | post
  | put
  | delete
  | other
  deriving DecidableEq

structure UDERequest where
  method : Method
  url : String
  body : Option RequestBody

/-- Embedding of _handleUDE_CRUD (source lines 158 to 209): dispatch on the
request method, falling through to the Method not implemented throw. -/
def handleUDE_CRUD (classTable : List String) (req : UDERequest) (st : BridgeState) : UDERun :=
  match req.method with
  | Method.get => getOp req.url st
  | Method.post => postOp classTable req.body st
  | Method.delete => deleteOp req.url st
  | Method.put => putOp req.url req.body st
  | Method.other =>
    { result := Except.error Failure.methodNotImplemented, state := st, trace := [] }

theorem dropPrefixCL_append (xs ys : List Char) : dropPrefixCL xs (xs ++ ys) = some ys := by
  induction xs with
  | nil => rfl
  | cons x xs ih => simp [dropPrefixCL, ih]

theorem data_append (a b : String) : (a ++ b).data = a.data ++ b.data := by
  cases a
  cases b
  rfl

theorem mk_data (s : String) : String.mk s.data = s := by
  cases s
  rfl

theorem stripPrefixStr_append (p x : String) : stripPrefixStr p (p ++ x) = x := by
  unfold stripPrefixStr
  rw [data_append, dropPrefixCL_append]

theorem pathRelative_under (base rest : String) :
    pathRelative base (base ++ "/" ++ rest) = rest := by
  unfold pathRelative
  have hd : (base ++ "/" ++ rest).data = (base.data ++ ['/']) ++ rest.data := by
    rw [data_append, data_append]
  rw [hd, dropPrefixCL_append]

theorem aliasLoop_ok_eq (am : List (String × Option String)) (ns : List String) :
    ∀ acc done : List String, aliasLoop am acc ns = (done, Except.ok ()) → done = acc ++ ns := by
  induction ns with
  | nil =>
    intro acc done h
    simp [aliasLoop] at h
    simp [h]
  | cons a rest ih =>
    intro acc done h
    unfold aliasLoop at h
    split at h
    · simp at h
    · have := ih (acc ++ [a]) done h
      simp [this]

theorem resolveUDE_some (st : BridgeState) (addr : String) (k : Option String) (c : Component)
    (st1 : BridgeState) (h : resolveUDE st addr = some (k, c, st1)) :
    lookupKV st1.live k = some c ∧ st1.durable = st.durable ∧ st1.aliasMap = st.aliasMap := by
  unfold resolveUDE at h
  split at h
  · simp at h
  · rename_i k0 hkey
    split at h
    · rename_i c0 hlive
      simp only [Option.some.injEq, Prod.mk.injEq] at h
      obtain ⟨rfl, rfl, rfl⟩ := h
      exact ⟨hlive, rfl, rfl⟩
    · split at h
      · rename_i c0 hdur
        simp only [Option.some.injEq, Prod.mk.injEq] at h
        obtain ⟨rfl, rfl, rfl⟩ := h
        exact ⟨by simp [lookupKV], rfl, rfl⟩
      · simp at h

theorem loadUDE_some (r : IOR) (st : BridgeState) (k : Option String) (c : Component)
    (st1 : BridgeState) (h : loadUDE r st = some (k, c, st1)) :
    lookupKV st1.live k = some c ∧ st1.durable = st.durable ∧ st1.aliasMap = st.aliasMap := by
  unfold loadUDE at h
  split at h
  · exact resolveUDE_some st r.pathStr k c st1 h
  · simp at h

theorem lookupKV_setModelAt (l : List (Option String × Component)) (k : Option String)
    (m : ModelData) :
    lookupKV (setModelAt l k m) k = (lookupKV l k).map (fun c => { c with model := m }) := by
  induction l with
  | nil => rfl
  | cons e rest ih =>
    obtain ⟨k0, c0⟩ := e
    by_cases h : k0 = k
    · subst h
      rw [setModelAt, if_pos rfl]
      simp [lookupKV]
    · rw [setModelAt, if_neg h]
      simp [lookupKV, h, ih]

theorem create_not_mem_map_addAlias (ns : List String) :
    PMCall.create ∉ ns.map PMCall.addAlias := by
  intro h
  rcases List.mem_map.mp h with ⟨a, _, ha⟩
  cases ha

/-- C2: for every GET request to /ior:esm:/X carrying header sec-fetch-dest
with value script, where X resolves to a resource path (placed under the web
root by the resolver contract), the client-visible terminal outcome of the
reference handler is an HTTP redirect, not a NotFound failure, and its
target is root-relative: a leading slash followed by the resolved path with
the web-root prefix stripped. -/
theorem ior_script_redirect_root_relative
    (loadPath : String → Option String) (webRoot rest url : String)
    (hs : strStartsWith url "/ior:esm:" = true)
    (hl : loadPath (stripLeadingSlash url) = some (webRoot ++ "/" ++ rest)) :
    terminalOutcome (iorGetHandler loadPath webRoot (some "script") url)
      = some (Outcome.response (HttpResponse.redirect ("/" ++ rest))) := by
  unfold iorGetHandler
  rw [hs]
  simp [hl, terminalOutcome, pathRelative_under]

theorem ior_script_redirect_root_relative_witness :
    terminalOutcome (iorGetHandler
        (fun s => if s = "ior:esm:/m" then some "webroot/Components/m.mjs" else none)
        "webroot" (some "script") "/ior:esm:/m")
      = some (Outcome.response (HttpResponse.redirect ("/" ++ "Components/m.mjs"))) :=
  ior_script_redirect_root_relative
    (fun s => if s = "ior:esm:/m" then some "webroot/Components/m.mjs" else none)
    "webroot" "Components/m.mjs" "/ior:esm:/m" (by decide) (by decide)

/-- C3 fails on the code: on a successful script-fetch resolution the
reference handler sends the redirect and then falls through to the
unconditional throw, so at this concrete input it both sends a response and
raises a failure, violating the exactly-one-terminal-outcome property.  The
missing early return after reply.redirect is a slip against the stated
design. -/
theorem ior_redirect_also_raises :
    (iorGetHandler (fun s => if s = "ior:esm:/demo" then some "webroot/demo/x.mjs" else none)
        "webroot" (some "script") "/ior:esm:/demo").sent
      = [HttpResponse.redirect "/demo/x.mjs"] ∧
    (iorGetHandler (fun s => if s = "ior:esm:/demo" then some "webroot/demo/x.mjs" else none)
        "webroot" (some "script") "/ior:esm:/demo").raised
      = some Failure.notFound := by
  decide

/-- C7: a GET on the reference namespace that lacks the script fetch header,
or whose reference does not resolve, raises NotFound and sends no redirect,
so the terminal outcome is the NotFound failure. -/
theorem ior_gating_notfound (loadPath : String → Option String) (webRoot : String)
    (hdr : Option String) (url : String)
    (h : hdr ≠ some "script" ∨ loadPath (stripLeadingSlash url) = none) :
    iorGetHandler loadPath webRoot hdr url = { sent := [], raised := some Failure.notFound } ∧
    terminalOutcome (iorGetHandler loadPath webRoot hdr url)
      = some (Outcome.failed Failure.notFound) := by
  have hrun : iorGetHandler loadPath webRoot hdr url
      = { sent := [], raised := some Failure.notFound } := by
    unfold iorGetHandler
    rcases h with h | h
    · cases hsw : strStartsWith url "/ior:esm:" <;> simp [hsw, h]
    · cases hsw : strStartsWith url "/ior:esm:" <;>
        cases hh : decide (hdr = some "script") <;>
          simp_all [hsw, h]
  exact ⟨hrun, by rw [hrun]; rfl⟩

theorem ior_gating_notfound_witness :
    iorGetHandler (fun _ => none) "webroot" (some "script") "/ior:esm:/nope"
      = { sent := [], raised := some Failure.notFound } ∧
    terminalOutcome (iorGetHandler (fun _ => none) "webroot" (some "script") "/ior:esm:/nope")
      = some (Outcome.failed Failure.notFound) :=
  ior_gating_notfound (fun _ => none) "webroot" (some "script") "/ior:esm:/nope" (Or.inr rfl)

/-- C8 fails on the code: a reference-namespace URL that does not begin with
the scheme marker /ior:esm: is rejected by the handler with the NotFound
throw, not with MalformedReference; the parser is never invoked for it.
Here the resolver would even resolve the reference and the script header is
present, yet the outcome is the NotFound failure. -/
theorem ior_bad_scheme_not_malformedreference :
    terminalOutcome (iorGetHandler (fun _ => some "webroot/a.mjs") "webroot"
        (some "script") "/iorstuff")
      = some (Outcome.failed Failure.notFound) ∧
    Outcome.failed Failure.notFound ≠ Outcome.failed Failure.malformedReference := by
  decide

/-- C8 amended: for every reference-namespace URL that does not begin with
the recognized scheme marker literal, the handler fails with NotFound,
whatever the header and however the resolver would behave. -/
theorem ior_bad_scheme_notfound (loadPath : String → Option String) (webRoot : String)
    (hdr : Option String) (url : String)
    (h : strStartsWith url "/ior:esm:" = false) :
    iorGetHandler loadPath webRoot hdr url = { sent := [], raised := some Failure.notFound } := by
  unfold iorGetHandler
  simp [h]

theorem ior_bad_scheme_notfound_witness :
    iorGetHandler (fun _ => some "webroot/a.mjs") "webroot" (some "script") "/iorstuff"
      = { sent := [], raised := some Failure.notFound } :=
  ior_bad_scheme_notfound (fun _ => some "webroot/a.mjs") "webroot" (some "script") "/iorstuff"
    (by decide)

/-- C9: in the read and delete operations the persisted-component protocol
tag is forced onto the parsed reference by appending it to the existing
protocol chain, leaving the location string untouched and without reparsing
the address: the reference the branches resolve is exactly the one-time
parse with the tag appended, and their results are those of resolving that
extended reference. -/
theorem get_delete_force_ude_tag_without_reparse (url : String) (st : BridgeState) :
    udeRefFor url
      = { protocol := (defaultIOR_init url).protocol ++ [UrlProtocol.ude],
          pathStr := (defaultIOR_init url).pathStr } ∧
    loadUDE (udeRefFor url) st = resolveUDE st (defaultIOR_init url).pathStr ∧
    (getOp url st).result
      = (match resolveUDE st (defaultIOR_init url).pathStr with
        | none => Except.error Failure.notFound
        | some (_, c, _) => Except.ok (UDEResponse.snapshot c)) ∧
    (deleteOp url st).result
      = (match resolveUDE st (defaultIOR_init url).pathStr with
        | none => Except.error Failure.notFound
        | some _ => Except.ok UDEResponse.deleteOk) := by
  have hload : loadUDE (udeRefFor url) st = resolveUDE st (defaultIOR_init url).pathStr := by
    simp [loadUDE, udeRefFor, pushProtocol, defaultIOR_init]
  refine ⟨rfl, hload, ?_, ?_⟩
  · unfold getOp
    rw [hload]
    rcases hres : resolveUDE st (defaultIOR_init url).pathStr with _ | ⟨k, c, st1⟩ <;> rfl
  · unfold deleteOp
    rw [hload]
    rcases hres : resolveUDE st (defaultIOR_init url).pathStr with _ | ⟨k, c, st1⟩ <;> rfl

/-- C10: the PUT branch makes no persistence manager call at all: its trace
of create, delete and addAlias calls is empty, the durable store is exactly
as before, and the alias registrations are exactly as before; only the live
in-memory instance is mutated, so the handler does not make the update
durable before responding. -/
theorem put_no_persistence_calls (ct : List String) (url : String)
    (body : Option RequestBody) (st : BridgeState) :
    (handleUDE_CRUD ct { method := Method.put, url := url, body := body } st).trace = [] ∧
    (handleUDE_CRUD ct { method := Method.put, url := url, body := body } st).state.durable
      = st.durable ∧
    (handleUDE_CRUD ct { method := Method.put, url := url, body := body } st).state.aliasMap
      = st.aliasMap := by
  show (putOp url body st).trace = [] ∧ (putOp url body st).state.durable = st.durable ∧
    (putOp url body st).state.aliasMap = st.aliasMap
  unfold putOp
  rcases hv : validateUDEStructure body with f | d
  · exact ⟨rfl, rfl, rfl⟩
  · rcases hl : loadUDE (udeRefFor url) st with _ | ⟨k, c, st1⟩
    · exact ⟨rfl, rfl, rfl⟩
    · obtain ⟨-, hdur, hal⟩ := loadUDE_some (udeRefFor url) st k c st1 hl
      exact ⟨rfl, hdur, hal⟩

/-- C5: a POST whose body fails structure validation, in particular one
missing the typeReference, is rejected with MalformedPayload before any
component is instantiated or registered: the collaborator state is exactly
the prior state and no persistence manager call was made, so no component
exists afterwards under any identifier implied by the body beyond those
already present. -/
theorem malformed_post_rejected_before_mutation (ct : List String) (u : String)
    (st : BridgeState) (body : Option RequestBody) (f : Failure)
    (hv : validateUDEStructure body = Except.error f) :
    f = Failure.malformedPayload ∧
    handleUDE_CRUD ct { method := Method.post, url := u, body := body } st
      = { result := Except.error Failure.malformedPayload, state := st, trace := [] } := by
  have hf : f = Failure.malformedPayload := by
    rcases body with _ | b
    · simp [validateUDEStructure] at hv
      exact hv.symm
    · obtain ⟨tr, mo, i, al⟩ := b
      rcases tr with _ | t <;> rcases mo with _ | m <;>
        simp_all [validateUDEStructure]
  subst hf
  refine ⟨rfl, ?_⟩
  show postOp ct body st
      = { result := Except.error Failure.malformedPayload, state := st, trace := [] }
  unfold postOp
  rw [hv]

theorem malformed_post_rejected_before_mutation_witness :
    Failure.malformedPayload = Failure.malformedPayload ∧
    handleUDE_CRUD ["T"]
        { method := Method.post, url := "/UDE",
          body := some { typeReference := none, model := some [("a", 1)],
                         id := some "x9", aliases := none } }
        { live := [], durable := [], aliasMap := [] }
      = { result := Except.error Failure.malformedPayload,
          state := { live := [], durable := [], aliasMap := [] }, trace := [] } :=
  malformed_post_rejected_before_mutation ["T"] "/UDE"
    { live := [], durable := [], aliasMap := [] }
    (some { typeReference := none, model := some [("a", 1)], id := some "x9", aliases := none })
    Failure.malformedPayload (by decide)

/-- C6: a PUT on an existing component with a validated payload responds
with a snapshot whose model is exactly the payload model, stores exactly the
payload model on the resolved instance (full replacement, so keys absent
from the payload are gone), leaves the alias registrations untouched and the
aliases recorded on the component unchanged. -/
theorem put_replaces_model_no_alias_change (ct : List String) (url : String)
    (body : Option RequestBody) (st : BridgeState) (d : UDEData) (k : Option String)
    (c : Component) (st1 : BridgeState)
    (hv : validateUDEStructure body = Except.ok d)
    (hl : loadUDE (udeRefFor url) st = some (k, c, st1)) :
    (handleUDE_CRUD ct { method := Method.put, url := url, body := body } st).result
      = Except.ok (UDEResponse.snapshot { c with model := d.particleData }) ∧
    lookupKV (handleUDE_CRUD ct { method := Method.put, url := url, body := body } st).state.live k
      = some { c with model := d.particleData } ∧
    (handleUDE_CRUD ct { method := Method.put, url := url, body := body } st).state.aliasMap
      = st.aliasMap ∧
    ({ c with model := d.particleData } : Component).pendingAliases = c.pendingAliases := by
  obtain ⟨hlive, hdur, hal⟩ := loadUDE_some (udeRefFor url) st k c st1 hl
  have hrun : handleUDE_CRUD ct { method := Method.put, url := url, body := body } st
      = { result := Except.ok (UDEResponse.snapshot { c with model := d.particleData }),
          state := { st1 with live := setModelAt st1.live k d.particleData },
          trace := [] } := by
    show putOp url body st = _
    unfold putOp
    rw [hv, hl]
  rw [hrun]
  refine ⟨rfl, ?_, hal, rfl⟩
  rw [lookupKV_setModelAt, hlive]
  rfl

theorem put_replaces_model_no_alias_change_witness :
    (handleUDE_CRUD ["T"]
        { method := Method.put, url := "/UDE/x1",
          body := some { typeReference := some "T", model := some [("foo", 9)],
                         id := none, aliases := none } }
        { live := [],
          durable := [(some "x1",
            { typeRef := "T", compId := some "x1", model := [("foo", 1), ("bar", 2)],
              pendingAliases := [] })],
          aliasMap := [] }).result
      = Except.ok (UDEResponse.snapshot
          { typeRef := "T", compId := some "x1", model := [("foo", 9)],
            pendingAliases := [] }) ∧
    lookupKV (handleUDE_CRUD ["T"]
        { method := Method.put, url := "/UDE/x1",
          body := some { typeReference := some "T", model := some [("foo", 9)],
                         id := none, aliases := none } }
        { live := [],
          durable := [(some "x1",
            { typeRef := "T", compId := some "x1", model := [("foo", 1), ("bar", 2)],
              pendingAliases := [] })],
          aliasMap := [] }).state.live (some "x1")
      = some { typeRef := "T", compId := some "x1", model := [("foo", 9)],
               pendingAliases := [] } ∧
    (handleUDE_CRUD ["T"]
        { method := Method.put, url := "/UDE/x1",
          body := some { typeReference := some "T", model := some [("foo", 9)],
                         id := none, aliases := none } }
        { live := [],
          durable := [(some "x1",
            { typeRef := "T", compId := some "x1", model := [("foo", 1), ("bar", 2)],
              pendingAliases := [] })],
          aliasMap := [] }).state.aliasMap
      = [] ∧
    ({ typeRef := "T", compId := some "x1", model := [("foo", 9)],
       pendingAliases := [] } : Component).pendingAliases
      = ({ typeRef := "T", compId := some "x1", model := [("foo", 1), ("bar", 2)],
           pendingAliases := [] } : Component).pendingAliases :=
  put_replaces_model_no_alias_change ["T"] "/UDE/x1"
    (some { typeReference := some "T", model := some [("foo", 9)], id := none, aliases := none })
    { live := [],
      durable := [(some "x1",
        { typeRef := "T", compId := some "x1", model := [("foo", 1), ("bar", 2)],
          pendingAliases := [] })],
      aliasMap := [] }
    { typeIOR := "T", particleData := [("foo", 9)], id := none, aliasNames := none }
    (some "x1")
    { typeRef := "T", compId := some "x1", model := [("foo", 1), ("bar", 2)],
      pendingAliases := [] }
    { live := [(some "x1",
        { typeRef := "T", compId := some "x1", model := [("foo", 1), ("bar", 2)],
          pendingAliases := [] })],
      durable := [(some "x1",
        { typeRef := "T", compId := some "x1", model := [("foo", 1), ("bar", 2)],
          pendingAliases := [] })],
      aliasMap := [] }
    (by decide) (by decide)

/-- C4: in the create operation every alias of the payload is registered via
addAlias before the durable create call: the successful trace is all the
addAlias calls in payload order followed by the single create call; and when
some alias registration fails the operation aborts with that failure, the
collaborator state is the prior state (the component is not durably
persisted), and create was never invoked. -/
theorem aliases_before_create (ct : List String) (st : BridgeState)
    (body : Option RequestBody) (d : UDEData)
    (hv : validateUDEStructure body = Except.ok d)
    (hcl : ct.contains d.typeIOR = true) :
    (∀ r st2 tr,
      postOp ct body st = { result := Except.ok r, state := st2, trace := tr } →
        tr = (d.aliasNames.getD []).map PMCall.addAlias ++ [PMCall.create]) ∧
    (∀ e, (aliasLoop st.aliasMap [] (d.aliasNames.getD [])).2 = Except.error e →
      postOp ct body st
        = { result := Except.error e, state := st,
            trace := ((aliasLoop st.aliasMap [] (d.aliasNames.getD [])).1).map
              PMCall.addAlias } ∧
      PMCall.create ∉ ((aliasLoop st.aliasMap [] (d.aliasNames.getD [])).1).map
        PMCall.addAlias) := by
  unfold postOp
  rw [hv]
  simp only [hcl, if_true]
  rcases hal : aliasLoop st.aliasMap [] (d.aliasNames.getD []) with ⟨done, exc⟩
  rcases exc with f | u
  · refine ⟨?_, ?_⟩
    · intro r st2 tr h
      simp at h
    · intro e he
      simp at he
      subst he
      exact ⟨rfl, create_not_mem_map_addAlias done⟩
  · cases u
    refine ⟨?_, ?_⟩
    · intro r st2 tr h
      have hdone : done = d.aliasNames.getD [] := aliasLoop_ok_eq st.aliasMap
        (d.aliasNames.getD []) [] done (by rw [hal])
      cases hconf : (lookupKV st.durable d.id).isSome || (lookupKV st.live d.id).isSome
      · rw [hconf] at h
        simp at h
        rcases h with ⟨h1, h2, h3⟩
        rw [← h3, hdone]
      · rw [hconf] at h
        simp at h
    · intro e he
      simp at he

theorem aliases_before_create_witness :
    postOp ["T"]
        (some { typeReference := some "T", model := some [], id := some "x2",
                aliases := some ["a"] })
        { live := [], durable := [], aliasMap := [("a", some "z")] }
      = { result := Except.error Failure.aliasConflict,
          state := { live := [], durable := [], aliasMap := [("a", some "z")] },
          trace := [] } ∧
    PMCall.create ∉ ([] : List PMCall) :=
  (aliases_before_create ["T"]
      { live := [], durable := [], aliasMap := [("a", some "z")] }
      (some { typeReference := some "T", model := some [], id := some "x2",
              aliases := some ["a"] })
      { typeIOR := "T", particleData := [], id := some "x2", aliasNames := some ["a"] }
      (by decide) (by decide)).2 Failure.aliasConflict (by decide)

theorem loadUDE_udeRefFor (url : String) (st : BridgeState) :
    loadUDE (udeRefFor url) st = resolveUDE st (defaultIOR_init url).pathStr := by
  simp [loadUDE, udeRefFor, pushProtocol, defaultIOR_init]

theorem defaultIOR_init_ude (x : String) :
    defaultIOR_init ("/UDE/" ++ x) = { protocol := [], pathStr := x } := by
  unfold defaultIOR_init
  rw [stripPrefixStr_append]

theorem postOp_ok_state (ct : List String) (st : BridgeState) (body : Option RequestBody)
    (d : UDEData) (r : UDEResponse)
    (hv : validateUDEStructure body = Except.ok d)
    (hpost : (postOp ct body st).result = Except.ok r) :
    ct.contains d.typeIOR = true ∧
    ∃ done : List String,
      aliasLoop st.aliasMap [] (d.aliasNames.getD []) = (done, Except.ok ()) ∧
      ((lookupKV st.durable d.id).isSome || (lookupKV st.live d.id).isSome) = false ∧
      (postOp ct body st).state
        = { live := st.live,
            durable := (d.id,
              { typeRef := d.typeIOR, compId := d.id, model := d.particleData,
                pendingAliases := done }) :: st.durable,
            aliasMap := done.map (fun a => (a, d.id)) ++ st.aliasMap } := by
  simp only [postOp, hv] at hpost ⊢
  cases hcl : ct.contains d.typeIOR
  · simp only [hcl] at hpost
    simp at hpost
  · simp only [hcl, eq_self_iff_true, if_true] at hpost ⊢
    rcases hal : aliasLoop st.aliasMap [] (d.aliasNames.getD []) with ⟨done, exc⟩
    rcases exc with f | u
    · rw [hal] at hpost
      simp at hpost
    · cases u
      cases hconf : (lookupKV st.durable d.id).isSome || (lookupKV st.live d.id).isSome
      · refine ⟨trivial, done, rfl, rfl, ?_⟩
        simp
      · rw [hal] at hpost
        simp only [hconf] at hpost
        simp at hpost

theorem loadUDE_udeRefFor_ude (x : String) (st : BridgeState) :
    loadUDE (udeRefFor ("/UDE/" ++ x)) st = resolveUDE st x := by
  rw [loadUDE_udeRefFor, defaultIOR_init_ude]

/-- C1: a POST of a payload with type reference T, model M and identifier X
that succeeds, followed by a GET of /UDE/X against the resulting state,
returns a snapshot whose model equals M. -/
theorem post_then_get_returns_model (ct : List String) (st : BridgeState)
    (body : RequestBody) (u X : String) (M : ModelData) (r : UDEResponse)
    (hid : body.id = some X) (hm : body.model = some M)
    (hpost : (handleUDE_CRUD ct { method := Method.post, url := u, body := some body } st).result
      = Except.ok r) :
    ∃ c : Component,
      (handleUDE_CRUD ct { method := Method.get, url := "/UDE/" ++ X, body := none }
          (handleUDE_CRUD ct { method := Method.post, url := u, body := some body } st).state).result
        = Except.ok (UDEResponse.snapshot c) ∧
      c.model = M := by
  obtain ⟨tr, mo, i, al⟩ := body
  have hi : i = some X := hid
  have hmo : mo = some M := hm
  subst hi
  subst hmo
  have hpostP : (postOp ct (some ⟨tr, some M, some X, al⟩) st).result = Except.ok r := hpost
  rcases tr with _ | T
  · exfalso
    simp [postOp, validateUDEStructure] at hpostP
  · have hv : validateUDEStructure (some ⟨some T, some M, some X, al⟩)
        = Except.ok ⟨T, M, some X, al⟩ := rfl
    obtain ⟨hcl, done, hal, hconf, hstate⟩ :=
      postOp_ok_state ct st (some ⟨some T, some M, some X, al⟩) ⟨T, M, some X, al⟩ r hv hpostP
    have hlive0 : lookupKV st.live (some X) = none := by
      rcases hx : lookupKV st.live (some X) with _ | c
      · rfl
      · rw [hx] at hconf
        simp at hconf
    refine ⟨⟨T, some X, M, done⟩, ?_, rfl⟩
    show (getOp ("/UDE/" ++ X)
        (postOp ct (some ⟨some T, some M, some X, al⟩) st).state).result
      = Except.ok (UDEResponse.snapshot ⟨T, some X, M, done⟩)
    rw [hstate]
    have hres : resolveUDE
        { live := st.live,
          durable := (some X, ⟨T, some X, M, done⟩) :: st.durable,
          aliasMap := done.map (fun a => (a, some X)) ++ st.aliasMap } X
        = some (some X, ⟨T, some X, M, done⟩,
            { live := (some X, (⟨T, some X, M, done⟩ : Component)) :: st.live,
              durable := (some X, ⟨T, some X, M, done⟩) :: st.durable,
              aliasMap := done.map (fun a => (a, some X)) ++ st.aliasMap }) := by
      unfold resolveUDE resolveKey
      simp [lookupKV, hlive0]
    unfold getOp
    rw [loadUDE_udeRefFor_ude, hres]

theorem post_then_get_returns_model_witness :
    ∃ c : Component,
      (handleUDE_CRUD ["T"]
          { method := Method.get, url := "/UDE/" ++ "x1", body := none }
          (handleUDE_CRUD ["T"]
              { method := Method.post, url := "/UDE",
                body := some { typeReference := some "T", model := some [("foo", 1)],
                               id := some "x1", aliases := none } }
              { live := [], durable := [], aliasMap := [] }).state).result
        = Except.ok (UDEResponse.snapshot c) ∧
      c.model = [("foo", 1)] :=
  post_then_get_returns_model ["T"] { live := [], durable := [], aliasMap := [] }
    { typeReference := some "T", model := some [("foo", 1)], id := some "x1", aliases := none }
    "/UDE" "x1" [("foo", 1)]
    (UDEResponse.snapshot
      { typeRef := "T", compId := some "x1", model := [("foo", 1)], pendingAliases := [] })
    rfl rfl (by decide)
